import Mathlib

/-!
Verification development for the banana-weather repository.

The Go sources are shallowly embedded: each Go function relevant to the
claims is translated into an executable Lean definition, with external
collaborators (geocoding, image/video generation, object storage, the
Firestore metadata store) represented by oracle values describing the
outcome of each call made during one run.  Time is modelled in seconds
as a natural number; the 3-hour cache TTL is 10800 seconds.
-/

set_option maxRecDepth 4000

namespace BananaWeather

/-- Model of `database.Location` (backend/pkg/database/client.go).
`lastUpdated` is a timestamp in seconds. -/
structure Location where
  id : String
  name : String
  category : String
  cityQuery : String
  imageURL : String
  videoURL : String
  isPreset : Bool
  lastUpdated : Nat
deriving DecidableEq, Repr

/-- ASCII fragment of Go `unicode.ToLower` (the simple lowercase mapping
restricted to the Latin letters, which is all these theorems evaluate on). -/
def goToLowerChar (c : Char) : Char :=
  if 'A' ≤ c ∧ c ≤ 'Z' then Char.ofNat (c.toNat + 32) else c

/-- Model of Go `strings.ToLower`. -/
def goToLower (s : String) : String :=
  String.mk (s.data.map goToLowerChar)

namespace weather

/-- The per-rune loop body of `sanitizeID` in backend/pkg/weather/service.go:
keep `[a-z0-9]`, replace everything else with an underscore. -/
def sanitizeChars : List Char → List Char
  | [] => []
  | r :: rest =>
    (if ('a' ≤ r ∧ r ≤ 'z') ∨ ('0' ≤ r ∧ r ≤ '9') then r else '_') :: sanitizeChars rest

/-- Model of `sanitizeID` in backend/pkg/weather/service.go: iterate over the
runes of the lowercased input, keeping `[a-z0-9]` and replacing the rest
with underscores. -/
def sanitizeID (s : String) : String :=
  String.mk (sanitizeChars (goToLower s).data)

end weather

namespace api

/-- The per-rune loop body of the duplicated `sanitizeID` in
backend/api/handler.go. -/
def sanitizeChars : List Char → List Char
  | [] => []
  | r :: rest =>
    (if ('a' ≤ r ∧ r ≤ 'z') ∨ ('0' ≤ r ∧ r ≤ '9') then r else '_') :: sanitizeChars rest

/-- Model of `sanitizeID` in backend/api/handler.go (textually identical to
the copy in the weather service). -/
def sanitizeID (s : String) : String :=
  String.mk (sanitizeChars (goToLower s).data)

end api

/-- Formalisation of the spec sentence describing the id slug: the lowercased
input with every character outside `[a-z0-9]` replaced by underscore. -/
def specSlug (s : String) : String :=
  String.mk ((goToLower s).data.map fun c =>
    if ('a' ≤ c ∧ c ≤ 'z') ∨ ('0' ≤ c ∧ c ≤ '9') then c else '_')

theorem weather_sanitizeChars_eq_map (l : List Char) :
    weather.sanitizeChars l = l.map fun c =>
      if ('a' ≤ c ∧ c ≤ 'z') ∨ ('0' ≤ c ∧ c ≤ '9') then c else '_' := by
  induction l with
  | nil => rfl
  | cons c rest ih => simp [weather.sanitizeChars, ih]

theorem api_sanitizeChars_eq_map (l : List Char) :
    api.sanitizeChars l = l.map fun c =>
      if ('a' ≤ c ∧ c ≤ 'z') ∨ ('0' ≤ c ∧ c ≤ '9') then c else '_' := by
  induction l with
  | nil => rfl
  | cons c rest ih => simp [api.sanitizeChars, ih]

/-- C7: the derived location id is the lowercased input with every character
outside `[a-z0-9]` replaced by underscore; the example inputs
"San Francisco, CA" and "san francisco, ca" sanitize identically; and the
two duplicated `sanitizeID` implementations (weather service and HTTP
handler) compute the same function. -/
theorem c7_sanitizeID_slug :
    (∀ s, weather.sanitizeID s = api.sanitizeID s)
    ∧ (∀ s, weather.sanitizeID s = specSlug s)
    ∧ weather.sanitizeID "San Francisco, CA" = "san_francisco__ca"
    ∧ weather.sanitizeID "San Francisco, CA" = weather.sanitizeID "san francisco, ca" := by
  refine ⟨?_, ?_, ?_, ?_⟩
  · intro s
    simp [weather.sanitizeID, api.sanitizeID,
      weather_sanitizeChars_eq_map, api_sanitizeChars_eq_map]
  · intro s
    simp [weather.sanitizeID, specSlug, weather_sanitizeChars_eq_map]
  · decide
  · decide

/-! ## Metadata store (backend/pkg/database/client.go)

The Firestore collection `locations` is modelled as an association list
from document id to `Location`.  `Doc(id).Set` replaces the document with
that id (or creates it); `Doc(id).Get` returns the document or NotFound. -/

/-- The Firestore `locations` collection: document id to stored record. -/
abbrev Store := List (String × Location)

namespace database

/-- Model of Firestore `Doc(k).Set(v)`: replace the binding for `k`, or
append a new one. -/
def setDoc : Store → String → Location → Store
  | [], k, v => [(k, v)]
  | kv :: rest, k, v =>
    if kv.fst = k then (k, v) :: rest else kv :: setDoc rest k v

/-- Model of `Client.GetLocation`: point lookup by document id; `none`
models the NotFound error. -/
def GetLocation (recs : Store) (id : String) : Option Location :=
  (recs.find? fun kv => kv.fst == id).map Prod.snd

/-- Model of `Client.UpsertLocation`: rejects an empty id, otherwise
overwrites `lastUpdated` with the current store time and writes the record
under its id. -/
def UpsertLocation (recs : Store) (now : Nat) (loc : Location) : Except String Store :=
  if loc.id = "" then .error "location ID is required"
  else .ok (setDoc recs loc.id { loc with lastUpdated := now })

/-- Model of `Client.GetPresets`: every stored record with `is_preset = true`. -/
def GetPresets (recs : Store) : List Location :=
  (recs.filter fun kv => kv.snd.isPreset).map Prod.snd

end database

theorem getLocation_setDoc_self (recs : Store) (k : String) (v : Location) :
    database.GetLocation (database.setDoc recs k v) k = some v := by
  induction recs with
  | nil => simp [database.setDoc, database.GetLocation, List.find?]
  | cons kv rest ih =>
    by_cases h : kv.fst = k
    · simp [database.setDoc, h, database.GetLocation, List.find?]
    · have hb : (kv.fst == k) = false := beq_eq_false_iff_ne.mpr h
      simp only [database.setDoc, if_neg h]
      simpa [database.GetLocation, List.find?_cons, hb] using ih

/-- C8: `UpsertLocation` rejects a record with an empty id without writing,
and every accepted write stores the record with `lastUpdated` overwritten to
the store clock, discarding whatever `lastUpdated` the caller supplied. -/
theorem c8_upsert_requires_id_and_stamps
    (recs : Store) (now : Nat) (loc : Location) :
    (loc.id = "" → database.UpsertLocation recs now loc = .error "location ID is required")
    ∧ (loc.id ≠ "" →
        database.UpsertLocation recs now loc =
          .ok (database.setDoc recs loc.id { loc with lastUpdated := now }))
    ∧ (∀ st, loc.id ≠ "" → database.UpsertLocation recs now loc = .ok st →
        database.GetLocation st loc.id = some { loc with lastUpdated := now }) := by
  refine ⟨?_, ?_, ?_⟩
  · intro h; simp [database.UpsertLocation, h]
  · intro h; simp [database.UpsertLocation, h]
  · intro st h hst
    simp only [database.UpsertLocation, if_neg h, Except.ok.injEq] at hst
    subst hst
    exact getLocation_setDoc_self recs loc.id _

/-- Witness for C8 at a concrete record: an empty-id record is rejected, and
a record carrying a stale `lastUpdated := 5` is stored with
`lastUpdated := 999` (the store clock). -/
theorem c8_upsert_witness :
    database.UpsertLocation [] 999
        { id := "", name := "x", category := "", cityQuery := "x",
          imageURL := "", videoURL := "", isPreset := false, lastUpdated := 5 } =
      .error "location ID is required"
    ∧ database.GetLocation
        (database.setDoc [] "paris"
          { id := "paris", name := "Paris", category := "", cityQuery := "Paris",
            imageURL := "", videoURL := "", isPreset := false, lastUpdated := 999 })
        "paris" =
      some { id := "paris", name := "Paris", category := "", cityQuery := "Paris",
             imageURL := "", videoURL := "", isPreset := false, lastUpdated := 999 } := by
  constructor
  · exact (c8_upsert_requires_id_and_stamps [] 999
      { id := "", name := "x", category := "", cityQuery := "x",
        imageURL := "", videoURL := "", isPreset := false, lastUpdated := 5 }).1 rfl
  · exact (c8_upsert_requires_id_and_stamps [] 999
      { id := "paris", name := "Paris", category := "", cityQuery := "Paris",
        imageURL := "", videoURL := "", isPreset := false, lastUpdated := 5 }).2.2
      _ (by decide) rfl

/-! ## Video generation (pkg/genai, src/unnamed/part_004)

`GenerateVideo` marshals the first generated video to JSON and reads it
back as a map with string-typed fields; a missing or non-string field
yields the empty string, and the nested `video` object may be absent.
The polling loop is driven by a `select` over caller cancellation and a
5-second ticker; the sequence of select outcomes of one run is modelled
as a list of `PollTick`s. -/

namespace genai

/-- Fields of the nested `video` JSON object, each defaulting to the empty
string when missing (the Go code uses `m["..."].(string)` with a dropped
ok-flag). -/
structure VideoFields where
  uri : String
  gcsUri : String
  videoUri : String
deriving DecidableEq, Repr

/-- The marshalled form of one generated video: three top-level candidate
URI fields plus an optional nested `video` object. -/
structure GeneratedVideo where
  gcsUri : String
  videoUri : String
  uri : String
  video : Option VideoFields
deriving DecidableEq, Repr

/-- Model of the URI extraction in `GenerateVideo` (part_004 lines 192-203):
top-level `gcsUri`, then `videoUri`, then `uri`; if all empty and a nested
`video` object exists, its `uri`, then `gcsUri`, then `videoUri`. -/
def extractVideoURI (m : GeneratedVideo) : String :=
  let uri := m.gcsUri
  let uri := if uri = "" then m.videoUri else uri
  let uri := if uri = "" then m.uri else uri
  if uri = "" then
    match m.video with
    | some vid =>
      let u := vid.uri
      let u := if u = "" then vid.gcsUri else u
      if u = "" then vid.videoUri else u
    | none => uri
  else uri

/-- Errors that `GenerateVideo` can return from inside the polling loop. -/
inductive VideoErr where
  | cancelled
  | opFailed (e : String)
  | noVideos
  | emptyURI (raw : GeneratedVideo)
deriving DecidableEq, Repr

/-- Model of the `op.Done` branch of the polling loop: an operation-level
error fails the job; an empty video list fails; otherwise the URI of the
first video is extracted tolerantly, and an all-empty response is an error
carrying the raw marshalled response, never a success with an empty URI. -/
def handleDone (opError : Option String) (videos : List GeneratedVideo) :
    Except VideoErr String :=
  match opError with
  | some e => .error (.opFailed e)
  | none =>
    match videos with
    | [] => .error .noVideos
    | v :: _ =>
      let uri := extractVideoURI v
      if uri ≠ "" then .ok uri else .error (.emptyURI v)

/-- One outcome of the `select` at the top of the polling loop: caller
cancellation, a failed poll call (logged, loop continues), an operation
that is not yet done, or a done operation with its payload. -/
inductive PollTick where
  | cancel
  | pollFailed (msg : String)
  | notDone
  | done (opError : Option String) (videos : List GeneratedVideo)
deriving DecidableEq, Repr

/-- True for the tick outcomes on which the loop continues to the next
iteration. -/
def PollTick.isContinue : PollTick → Bool
  | .pollFailed _ => true
  | .notDone => true
  | _ => false

/-- Model of the polling loop of `GenerateVideo`: consume select outcomes in
order; `none` means the loop is still polling after the given outcomes. -/
def pollLoop : List PollTick → Option (Except VideoErr String)
  | [] => none
  | .cancel :: _ => some (.error .cancelled)
  | .pollFailed _ :: rest => pollLoop rest
  | .notDone :: rest => pollLoop rest
  | .done e vs :: _ => some (handleDone e vs)

/-- The candidate fields in the order the spec says extraction must attempt
them: the top-level fields, then the nested video object fields. -/
def specCandidates (m : GeneratedVideo) : List String :=
  [m.gcsUri, m.videoUri, m.uri] ++
    (match m.video with
     | some vid => [vid.uri, vid.gcsUri, vid.videoUri]
     | none => [])

end genai

/-- C5: on a done operation with no operation-level error, the video URI is
the first non-empty string among the top-level fields followed by the
nested video object fields; three structurally different responses carrying
the same reference all extract that reference; and when every candidate is
empty the result is an error carrying the raw response — never a success
with an empty reference. -/
theorem c5_tolerant_extraction (ref : String) (href : ref ≠ "") :
    (∀ m : genai.GeneratedVideo,
      genai.extractVideoURI m =
        ((genai.specCandidates m).find? fun s => s ≠ "").getD "")
    ∧ genai.handleDone none
        [{ gcsUri := "", videoUri := "", uri := ref, video := none }] = .ok ref
    ∧ genai.handleDone none
        [{ gcsUri := ref, videoUri := "", uri := "", video := none }] = .ok ref
    ∧ genai.handleDone none
        [{ gcsUri := "", videoUri := "", uri := "",
           video := some { uri := ref, gcsUri := "", videoUri := "" } }] = .ok ref
    ∧ (∀ v rest, genai.extractVideoURI v = "" →
        genai.handleDone none (v :: rest) = .error (.emptyURI v))
    ∧ (∀ e vs u, genai.handleDone e vs = .ok u → u ≠ "") := by
  refine ⟨?_, ?_, ?_, ?_, ?_, ?_⟩
  · intro m
    rcases m with ⟨g, v, u, nested⟩
    by_cases hg : g = "" <;> by_cases hv : v = "" <;> by_cases hu : u = "" <;>
      rcases nested with _ | ⟨⟨nu, ng, nv⟩⟩ <;>
        simp_all [genai.extractVideoURI, genai.specCandidates, List.find?] <;>
        (try by_cases hnu : nu = "") <;> (try by_cases hng : ng = "") <;>
          (try by_cases hnv : nv = "") <;> simp_all [List.find?]
  · simp [genai.handleDone, genai.extractVideoURI, href]
  · simp [genai.handleDone, genai.extractVideoURI, href]
  · simp [genai.handleDone, genai.extractVideoURI, href]
  · intro v rest hempty
    simp [genai.handleDone, hempty]
  · intro e vs u hok
    rcases e with _ | e
    · rcases vs with _ | ⟨v, rest⟩
      · simp [genai.handleDone] at hok
      · by_cases h : genai.extractVideoURI v = ""
        · simp [genai.handleDone, h] at hok
        · simp only [genai.handleDone, if_pos h, Except.ok.injEq] at hok
          simpa [← hok] using h
    · simp [genai.handleDone] at hok

/-- Witness for C5 at the concrete reference `gs://bucket/videos/v.mp4`. -/
theorem c5_tolerant_extraction_witness :
    ("gs://bucket/videos/v.mp4" : String) ≠ ""
    ∧ genai.handleDone none
        [{ gcsUri := "", videoUri := "", uri := "gs://bucket/videos/v.mp4",
           video := none }] = .ok "gs://bucket/videos/v.mp4"
    ∧ genai.handleDone none
        [{ gcsUri := "gs://bucket/videos/v.mp4", videoUri := "", uri := "",
           video := none }] = .ok "gs://bucket/videos/v.mp4"
    ∧ genai.handleDone none
        [{ gcsUri := "", videoUri := "", uri := "",
           video := some { uri := "gs://bucket/videos/v.mp4", gcsUri := "",
                           videoUri := "" } }] = .ok "gs://bucket/videos/v.mp4"
    ∧ genai.handleDone none
        [{ gcsUri := "", videoUri := "", uri := "", video := none }] =
      .error (.emptyURI { gcsUri := "", videoUri := "", uri := "", video := none }) := by
  have h := c5_tolerant_extraction "gs://bucket/videos/v.mp4" (by decide)
  exact ⟨by decide, h.2.1, h.2.2.1, h.2.2.2.1,
    h.2.2.2.2.1 _ [] (by decide)⟩

/-- C6: a transient poll-transport error never terminates the polling loop
(the loop result after such a tick is the loop result on the remaining
ticks); caller cancellation terminates it at once with the
cancellation-flavoured error, which no done-operation outcome can produce;
and a run whose ticks are all transient errors or not-done polls never
exits the loop. -/
theorem c6_poll_loop_cancellation :
    (∀ msg rest, genai.pollLoop (.pollFailed msg :: rest) = genai.pollLoop rest)
    ∧ (∀ rest, genai.pollLoop (.notDone :: rest) = genai.pollLoop rest)
    ∧ (∀ rest, genai.pollLoop (.cancel :: rest) = some (.error .cancelled))
    ∧ (∀ e vs, genai.handleDone e vs ≠ .error .cancelled)
    ∧ (∀ ticks : List genai.PollTick,
        (∀ t ∈ ticks, t.isContinue = true) → genai.pollLoop ticks = none) := by
  refine ⟨fun msg rest => rfl, fun rest => rfl, fun rest => rfl, ?_, ?_⟩
  · intro e vs
    rcases e with _ | e
    · rcases vs with _ | ⟨v, rest⟩
      · simp [genai.handleDone]
      · by_cases h : genai.extractVideoURI v = "" <;> simp [genai.handleDone, h]
    · simp [genai.handleDone]
  · intro ticks hall
    induction ticks with
    | nil => rfl
    | cons t rest ih =>
      have ht := hall t (List.mem_cons_self t rest)
      have hrest := fun x hx => hall x (List.mem_cons_of_mem t hx)
      cases t with
      | cancel => simp [genai.PollTick.isContinue] at ht
      | pollFailed msg => simpa [genai.pollLoop] using ih hrest
      | notDone => simpa [genai.pollLoop] using ih hrest
      | done e vs => simp [genai.PollTick.isContinue] at ht

/-- Witness for C6: a run of two transient poll failures and a not-done poll
never exits the loop, and a cancellation tick exits with the cancellation
error. -/
theorem c6_poll_loop_witness :
    genai.pollLoop [.pollFailed "http 500", .notDone, .pollFailed "timeout"] = none
    ∧ genai.pollLoop [.cancel] = some (.error .cancelled)
    ∧ genai.handleDone (some "quota") [] ≠ .error .cancelled := by
  refine ⟨?_, ?_, ?_⟩
  · exact c6_poll_loop_cancellation.2.2.2.2 _ (by decide)
  · exact c6_poll_loop_cancellation.2.2.1 []
  · exact c6_poll_loop_cancellation.2.2.2.1 (some "quota") []

/-! ## Orchestration pipeline (backend/pkg/weather/service.go, GetWeatherFlow)

One run of `GetWeatherFlow` is modelled as a pure function of the request
inputs, an oracle describing the outcome of each collaborator call made
during the run, and the current store contents.  The run returns the
ordered list of events pushed through the status callback, the number of
ImageGenerator and VideoGenerator calls, the records passed to
`UpsertLocation` in order, the resulting store, and the Go return value
(`none` models a nil error). -/

/-- The payload of a `result` event (`WeatherResponse` in service.go); the
JSON marshalling is modelled by carrying the struct itself. -/
structure WeatherResponse where
  city : String
  imageBase64 : String
  imageURL : String
  lastUpdated : Nat
deriving DecidableEq, Repr

/-- One event pushed through the status callback. -/
inductive Event where
  | status : String → Event
  | result : WeatherResponse → Event
  | video : String → Event
  | error : String → Event
deriving DecidableEq, Repr

/-- The name of an event, as written on the SSE wire. -/
inductive EvName where
  | status
  | result
  | video
  | error
deriving DecidableEq, Repr

/-- Project an event to its wire name. -/
def Event.name : Event → EvName
  | .status _ => .status
  | .result _ => .result
  | .video _ => .video
  | .error _ => .error

/-- Outcomes of the collaborator calls a single `GetWeatherFlow` run can
make, plus the run clock (`time.Now()` in seconds). -/
structure FlowEnv where
  reverseGeocode : Except String String
  cityLocation : Except String String
  generateImage : Except String String
  storageAvailable : Bool
  uploadImage : Except String (String × String)
  generateVideo : Except String String
  now : Nat
deriving Repr

/-- Everything observable about one `GetWeatherFlow` run. -/
structure FlowResult where
  events : List Event
  imageCalls : Nat
  videoCalls : Nat
  upserts : List Location
  finalStore : Store
  ret : Option String
deriving DecidableEq, Repr

/-- The TTL of the content cache: `3 * time.Hour` in seconds. -/
def threeHours : Nat := 3 * 3600

/-- Model of the location-resolution branch of `GetWeatherFlow` (service.go
lines 85-110): coordinates go through reverse geocoding, otherwise the city
query (defaulted to San Francisco when empty) is resolved; an error result
carries the emitted error-event message and the returned error. -/
def flowResolve (latStr lngStr : String) (env : FlowEnv) :
    Except (String × String) String :=
  if latStr ≠ "" ∧ lngStr ≠ "" then
    match env.reverseGeocode with
    | .error e => .error ("Failed to resolve location: " ++ e, e)
    | .ok name => .ok name
  else
    match env.cityLocation with
    | .error e => .error ("Failed to find city: " ++ e, e)
    | .ok name => .ok name

/-- The cache-hit condition of service.go line 119: a record was found and
`time.Since(lastUpdated) < 3 hours`. -/
def isCacheHit : Option Location → Nat → Bool
  | some c, now => decide (now - c.lastUpdated < threeHours)
  | none, _ => false

/-- `UpsertLocation` as called by the pipeline: the returned error is
ignored (logged only), so a failed write leaves the store unchanged. -/
def applyUpsert (db : Store) (now : Nat) (loc : Location) : Store :=
  match database.UpsertLocation db now loc with
  | .ok st => st
  | .error _ => db

/-- Model of the upload-succeeded tail of `GetWeatherFlow` (service.go lines
176-216): partial upsert of the image-only record, the Veo call, and on
success the public-URL rewrite, the video event and the final upsert. -/
def flowAfterUpload (formattedCity locID publicImageURL : String)
    (env : FlowEnv) (db : Store) : FlowResult :=
  let currentLoc : Location :=
    { id := locID, name := formattedCity, category := "",
      cityQuery := formattedCity, imageURL := publicImageURL, videoURL := "",
      isPreset := false, lastUpdated := env.now }
  let db1 := applyUpsert db env.now currentLoc
  match env.generateVideo with
  | .error _ =>
    { events := [.status "Animating (Veo 3.1)... this may take a minute.",
                 .error "Video generation failed (Beta). Enjoy the image!"],
      imageCalls := 0, videoCalls := 1, upserts := [currentLoc],
      finalStore := db1, ret := none }
  | .ok videoGsURI =>
    let publicVideoURL := "https://storage.googleapis.com/" ++ videoGsURI.drop 5
    let finalLoc := { currentLoc with videoURL := publicVideoURL }
    let db2 := applyUpsert db1 env.now finalLoc
    { events := [.status "Animating (Veo 3.1)... this may take a minute.",
                 .status "Finalizing video...",
                 .video publicVideoURL],
      imageCalls := 0, videoCalls := 1, upserts := [currentLoc, finalLoc],
      finalStore := db2, ret := none }

/-- Model of the cache-miss tail of `GetWeatherFlow` (service.go lines
137-216): image generation (fatal on failure), the immediate result event,
the storage-availability check, and the upload stage whose failure is
logged only. -/
def flowMiss (formattedCity locID : String) (env : FlowEnv) (db : Store) :
    FlowResult :=
  match env.generateImage with
  | .error e =>
    { events := [.status ("Getting a banana image of the weather for "
                   ++ formattedCity ++ "..."),
                 .error ("Failed to generate image: " ++ e)],
      imageCalls := 1, videoCalls := 0, upserts := [], finalStore := db,
      ret := some e }
  | .ok imgBase64 =>
    let pre := [Event.status ("Getting a banana image of the weather for "
                  ++ formattedCity ++ "..."),
                Event.result { city := formattedCity, imageBase64 := imgBase64,
                               imageURL := "", lastUpdated := env.now }]
    if env.storageAvailable = false then
      { events := pre, imageCalls := 1, videoCalls := 0, upserts := [],
        finalStore := db, ret := none }
    else
      match env.uploadImage with
      | .error _ =>
        { events := pre ++ [.status "Preparing for animation..."],
          imageCalls := 1, videoCalls := 0, upserts := [], finalStore := db,
          ret := none }
      | .ok (_gsURI, publicImageURL) =>
        let rest := flowAfterUpload formattedCity locID publicImageURL env db
        { rest with
            events := pre ++ [.status "Preparing for animation..."] ++ rest.events,
            imageCalls := 1 }

/-- Model of `GetWeatherFlow` (service.go lines 77-217): resolution, cache
check against the derived id, and on a miss the generation pipeline. -/
def GetWeatherFlow (cityQuery latStr lngStr : String) (env : FlowEnv)
    (db : Store) : FlowResult :=
  match flowResolve latStr lngStr env with
  | .error (msg, e) =>
    { events := [.status "Identifying location...", .error msg],
      imageCalls := 0, videoCalls := 0, upserts := [], finalStore := db,
      ret := some e }
  | .ok formattedCity =>
    let locID := weather.sanitizeID formattedCity
    let pre := [Event.status "Identifying location...",
                Event.status ("Found location: " ++ formattedCity)]
    match database.GetLocation db locID with
    | some cachedLoc =>
      if env.now - cachedLoc.lastUpdated < threeHours then
        { events := pre ++
            [.status "Loading cached forecast...",
             .result { city := formattedCity, imageBase64 := "",
                       imageURL := cachedLoc.imageURL,
                       lastUpdated := cachedLoc.lastUpdated }] ++
            (if cachedLoc.videoURL ≠ "" then [Event.video cachedLoc.videoURL]
             else []),
          imageCalls := 0, videoCalls := 0, upserts := [], finalStore := db,
          ret := none }
      else
        let r := flowMiss formattedCity locID env db
        { r with events := pre ++ r.events }
    | none =>
      let r := flowMiss formattedCity locID env db
      { r with events := pre ++ r.events }

/-- The wire-name sequence of the events emitted by one run. -/
def flowNames (cityQuery latStr lngStr : String) (env : FlowEnv) (db : Store) :
    List EvName :=
  (GetWeatherFlow cityQuery latStr lngStr env db).events.map Event.name

/-- Tail of the grammar claimed by the spec: `status* video?`. -/
def shapeTailClaimed : List EvName → Bool
  | [] => true
  | .status :: rest => shapeTailClaimed rest
  | [.video] => true
  | _ => false

/-- The event grammar claimed by the spec for every run:
`status*` then at most one `result`, then `status*` then at most one
`video`, and nothing else. -/
def claimedC2Shape : List EvName → Bool
  | [] => true
  | .status :: rest => claimedC2Shape rest
  | .result :: rest => shapeTailClaimed rest
  | [.video] => true
  | _ => false

/-- Tail of the amended grammar: `status*` then nothing, one terminal
`video`, or one terminal `error`. -/
def amendedTail : List EvName → Bool
  | [] => true
  | .status :: rest => amendedTail rest
  | [.video] => true
  | [.error] => true
  | _ => false

/-- The amended event grammar: `status*` then nothing, one terminal
`error`, or one `result` followed by `status*` and at most one terminal
`video` or terminal `error`. -/
def amendedC2Shape : List EvName → Bool
  | [] => true
  | .status :: rest => amendedC2Shape rest
  | [.error] => true
  | .result :: rest => amendedTail rest
  | _ => false

/-- True when no event of any kind follows a `video` event. -/
def noneAfterVideo : List EvName → Bool
  | [] => true
  | .video :: rest => rest.isEmpty
  | _ :: rest => noneAfterVideo rest

/-- True when every `video` event is preceded by a `result` event; the
second argument records whether a `result` has been seen. -/
def videoAfterResultOK : List EvName → Bool → Bool
  | [], _ => true
  | .result :: rest, _ => videoAfterResultOK rest true
  | .video :: rest, seen => seen && videoAfterResultOK rest seen
  | _ :: rest, seen => videoAfterResultOK rest seen

theorem flowMiss_names (city locID : String) (env : FlowEnv) (db : Store) :
    (flowMiss city locID env db).events.map Event.name = [.status, .error]
    ∨ (flowMiss city locID env db).events.map Event.name = [.status, .result]
    ∨ (flowMiss city locID env db).events.map Event.name =
        [.status, .result, .status]
    ∨ (flowMiss city locID env db).events.map Event.name =
        [.status, .result, .status, .status, .error]
    ∨ (flowMiss city locID env db).events.map Event.name =
        [.status, .result, .status, .status, .status, .video] := by
  rcases himg : env.generateImage with ⟨e⟩ | ⟨img⟩
  · left; simp [flowMiss, himg, Event.name]
  · cases hsto : env.storageAvailable
    · right; left; simp [flowMiss, himg, hsto, Event.name]
    · rcases hup : env.uploadImage with ⟨e⟩ | ⟨g, p⟩
      · right; right; left; simp [flowMiss, himg, hsto, hup, Event.name]
      · rcases hvid : env.generateVideo with ⟨e2⟩ | ⟨v⟩
        · right; right; right; left
          simp [flowMiss, himg, hsto, hup, flowAfterUpload, hvid, Event.name]
        · right; right; right; right
          simp [flowMiss, himg, hsto, hup, flowAfterUpload, hvid, Event.name]

theorem flow_names_cases (cq la ln : String) (env : FlowEnv) (db : Store) :
    flowNames cq la ln env db = [.status, .error]
    ∨ flowNames cq la ln env db = [.status, .status, .status, .result]
    ∨ flowNames cq la ln env db = [.status, .status, .status, .result, .video]
    ∨ flowNames cq la ln env db = [.status, .status, .status, .error]
    ∨ flowNames cq la ln env db = [.status, .status, .status, .result, .status]
    ∨ flowNames cq la ln env db =
        [.status, .status, .status, .result, .status, .status, .error]
    ∨ flowNames cq la ln env db =
        [.status, .status, .status, .result, .status, .status, .status, .video] := by
  unfold flowNames
  rcases hres : flowResolve la ln env with ⟨msg, e⟩ | name
  · left; simp [GetWeatherFlow, hres, Event.name]
  · have hmiss :
        ∀ h : (flowMiss name (weather.sanitizeID name) env db).events.map
            Event.name = [.status, .error]
          ∨ (flowMiss name (weather.sanitizeID name) env db).events.map
            Event.name = [.status, .result]
          ∨ (flowMiss name (weather.sanitizeID name) env db).events.map
            Event.name = [.status, .result, .status]
          ∨ (flowMiss name (weather.sanitizeID name) env db).events.map
            Event.name = [.status, .result, .status, .status, .error]
          ∨ (flowMiss name (weather.sanitizeID name) env db).events.map
            Event.name = [.status, .result, .status, .status, .status, .video],
        ([EvName.status, EvName.status] ++
            (flowMiss name (weather.sanitizeID name) env db).events.map Event.name)
            = [.status, .status, .status, .error]
          ∨ ([EvName.status, EvName.status] ++
              (flowMiss name (weather.sanitizeID name) env db).events.map Event.name)
            = [.status, .status, .status, .result]
          ∨ ([EvName.status, EvName.status] ++
              (flowMiss name (weather.sanitizeID name) env db).events.map Event.name)
            = [.status, .status, .status, .result, .status]
          ∨ ([EvName.status, EvName.status] ++
              (flowMiss name (weather.sanitizeID name) env db).events.map Event.name)
            = [.status, .status, .status, .result, .status, .status, .error]
          ∨ ([EvName.status, EvName.status] ++
              (flowMiss name (weather.sanitizeID name) env db).events.map Event.name)
            = [.status, .status, .status, .result, .status, .status, .status, .video] := by
      rintro (h | h | h | h | h) <;> rw [h] <;> simp
    rcases hget : database.GetLocation db (weather.sanitizeID name) with _ | r
    · rcases hmiss (flowMiss_names name (weather.sanitizeID name) env db)
        with h | h | h | h | h
      · right; right; right; left
        simpa [GetWeatherFlow, hres, hget, Event.name] using h
      · right; left
        simpa [GetWeatherFlow, hres, hget, Event.name] using h
      · right; right; right; right; left
        simpa [GetWeatherFlow, hres, hget, Event.name] using h
      · right; right; right; right; right; left
        simpa [GetWeatherFlow, hres, hget, Event.name] using h
      · right; right; right; right; right; right
        simpa [GetWeatherFlow, hres, hget, Event.name] using h
    · by_cases hfresh : env.now - r.lastUpdated < threeHours
      · by_cases hv : r.videoURL = ""
        · right; left
          simp [GetWeatherFlow, hres, hget, hfresh, hv, Event.name]
        · right; right; left
          simp [GetWeatherFlow, hres, hget, hfresh, hv, Event.name]
      · rcases hmiss (flowMiss_names name (weather.sanitizeID name) env db)
          with h | h | h | h | h
        · right; right; right; left
          simpa [GetWeatherFlow, hres, hget, hfresh, Event.name] using h
        · right; left
          simpa [GetWeatherFlow, hres, hget, hfresh, Event.name] using h
        · right; right; right; right; left
          simpa [GetWeatherFlow, hres, hget, hfresh, Event.name] using h
        · right; right; right; right; right; left
          simpa [GetWeatherFlow, hres, hget, hfresh, Event.name] using h
        · right; right; right; right; right; right
          simpa [GetWeatherFlow, hres, hget, hfresh, Event.name] using h

/-! ## Concrete scenario environments used by counterexamples and witnesses -/

/-- A run in which everything up to the upload succeeds and the Veo call
fails: the soft-failure path of service.go lines 190-195. -/
def envVideoFail : FlowEnv :=
  { reverseGeocode := .ok "X", cityLocation := .ok "Paris",
    generateImage := .ok "IMG64", storageAvailable := true,
    uploadImage := .ok ("gs://bkt/image_1.png", "https://pub/image_1.png"),
    generateVideo := .error "veo quota", now := 20000 }

/-- A run in which image generation succeeds and the upload fails: the
soft-failure path of service.go lines 169-174. -/
def envUploadFail : FlowEnv :=
  { reverseGeocode := .ok "X", cityLocation := .ok "Paris",
    generateImage := .ok "IMG64", storageAvailable := true,
    uploadImage := .error "denied",
    generateVideo := .ok "gs://bkt/videos/v.mp4", now := 20000 }

/-- A fully successful cache-miss run. -/
def envSuccess : FlowEnv :=
  { reverseGeocode := .ok "X", cityLocation := .ok "Paris",
    generateImage := .ok "IMG64", storageAvailable := true,
    uploadImage := .ok ("gs://bkt/image_1.png", "https://pub/image_1.png"),
    generateVideo := .ok "gs://bkt/videos/v.mp4", now := 20000 }

/-- A cached record for Paris, fresh at clock 20000 and carrying a video. -/
def locParisFresh : Location :=
  { id := "paris", name := "Paris", category := "Europe", cityQuery := "Paris",
    imageURL := "https://pub/paris.png", videoURL := "https://pub/paris.mp4",
    isPreset := false, lastUpdated := 15000 }

/-- A preset record for Paris that is stale at clock 20000. -/
def locParisStalePreset : Location :=
  { id := "paris", name := "Paris", category := "Europe", cityQuery := "Paris",
    imageURL := "https://pub/paris.png", videoURL := "https://pub/paris.mp4",
    isPreset := true, lastUpdated := 0 }

/-- C2 counterexample: in the video-failure run (a run that still returns
success), the emitted name sequence is
`status, status, status, result, status, status, error`, which the claimed
grammar `status* result? status* video?` rejects — the claim as stated
fails on this run. -/
theorem c2_counterexample_video_failure_run :
    claimedC2Shape (flowNames "Paris" "" "" envVideoFail []) = false
    ∧ flowNames "Paris" "" "" envVideoFail [] =
        [.status, .status, .status, .result, .status, .status, .error]
    ∧ (GetWeatherFlow "Paris" "" "" envVideoFail []).ret = none := by
  refine ⟨?_, ?_, ?_⟩ <;> rfl

/-- C2 (amended): for every run, the name sequence matches
`status* (error | result status* (video | error)?)?` — the spec grammar
extended with the single terminal error event of failing runs; moreover at
most one `result` and at most one `video` are emitted, no event of any kind
follows a `video`, and a `video` is always preceded by a `result`. -/
theorem c2_amended_event_ordering (cq la ln : String) (env : FlowEnv) (db : Store) :
    amendedC2Shape (flowNames cq la ln env db) = true
    ∧ (flowNames cq la ln env db).count .result ≤ 1
    ∧ (flowNames cq la ln env db).count .video ≤ 1
    ∧ noneAfterVideo (flowNames cq la ln env db) = true
    ∧ videoAfterResultOK (flowNames cq la ln env db) false = true := by
  rcases flow_names_cases cq la ln env db with h | h | h | h | h | h | h <;>
    rw [h] <;> exact ⟨by decide, by decide, by decide, by decide, by decide⟩

theorem flowMiss_imageCalls (city locID : String) (env : FlowEnv) (db : Store) :
    (flowMiss city locID env db).imageCalls = 1 := by
  rcases himg : env.generateImage with ⟨e⟩ | ⟨img⟩
  · simp [flowMiss, himg]
  · cases hsto : env.storageAvailable
    · simp [flowMiss, himg, hsto]
    · rcases hup : env.uploadImage with ⟨e⟩ | ⟨g, p⟩
      · simp [flowMiss, himg, hsto, hup]
      · simp [flowMiss, himg, hsto, hup]

theorem flowMiss_ret (city locID : String) (env : FlowEnv) (db : Store) :
    (flowMiss city locID env db).ret =
      match env.generateImage with
      | .error e => some e
      | .ok _ => none := by
  rcases himg : env.generateImage with ⟨e⟩ | ⟨img⟩
  · simp [flowMiss, himg]
  · cases hsto : env.storageAvailable
    · simp [flowMiss, himg, hsto]
    · rcases hup : env.uploadImage with ⟨e⟩ | ⟨g, p⟩
      · simp [flowMiss, himg, hsto, hup]
      · rcases hvid : env.generateVideo with ⟨e2⟩ | ⟨v⟩ <;>
        simp [flowMiss, himg, hsto, hup, flowAfterUpload, hvid]

/-- C1: for a run whose resolved name derives an id with a stored record,
the run is a cache hit (defined exactly as in the source: the record is
fresh by strictly less than 3 hours) if and only if the run makes zero
ImageGenerator and zero VideoGenerator calls; on a hit exactly one
`result` event is emitted, exactly one `video` event iff the cached
`videoURL` is non-empty, the run returns success and writes nothing; a
stored-but-stale record is a miss and proceeds to image generation. -/
theorem c1_cache_hit_ttl (cq la ln name : String) (env : FlowEnv) (db : Store)
    (r : Location)
    (hres : flowResolve la ln env = .ok name)
    (hget : database.GetLocation db (weather.sanitizeID name) = some r) :
    (isCacheHit (some r) env.now = true ↔
      (GetWeatherFlow cq la ln env db).imageCalls = 0
      ∧ (GetWeatherFlow cq la ln env db).videoCalls = 0)
    ∧ (env.now - r.lastUpdated < threeHours →
        (flowNames cq la ln env db).count .result = 1
        ∧ (flowNames cq la ln env db).count .video =
            (if r.videoURL = "" then 0 else 1)
        ∧ (GetWeatherFlow cq la ln env db).ret = none
        ∧ (GetWeatherFlow cq la ln env db).upserts = []
        ∧ (GetWeatherFlow cq la ln env db).finalStore = db)
    ∧ (threeHours ≤ env.now - r.lastUpdated →
        (GetWeatherFlow cq la ln env db).imageCalls = 1) := by
  by_cases hfresh : env.now - r.lastUpdated < threeHours
  · refine ⟨?_, ?_, ?_⟩
    · simp [GetWeatherFlow, hres, hget, hfresh, isCacheHit]
    · intro _
      by_cases hv : r.videoURL = "" <;>
        simp [flowNames, GetWeatherFlow, hres, hget, hfresh, hv, Event.name]
    · intro hstale
      exact absurd hfresh (Nat.not_lt.mpr hstale)
  · refine ⟨?_, ?_, ?_⟩
    · have h1 : (GetWeatherFlow cq la ln env db).imageCalls = 1 := by
        simp [GetWeatherFlow, hres, hget, hfresh, flowMiss_imageCalls]
      simp [isCacheHit, hfresh, h1]
    · intro hf; exact absurd hf hfresh
    · intro _
      simp [GetWeatherFlow, hres, hget, hfresh, flowMiss_imageCalls]

/-- Witness for C1: with the fresh cached Paris record (5000 seconds old
against a 10800-second TTL) the run makes no generator calls, emits one
`result` and one `video` (the record has a video URL), returns success and
writes nothing; with the same record made stale the run calls the image
generator once. -/
theorem c1_cache_hit_ttl_witness :
    (isCacheHit (some locParisFresh) envSuccess.now = true ↔
      (GetWeatherFlow "Paris" "" "" envSuccess [("paris", locParisFresh)]).imageCalls = 0
      ∧ (GetWeatherFlow "Paris" "" "" envSuccess [("paris", locParisFresh)]).videoCalls = 0)
    ∧ ((flowNames "Paris" "" "" envSuccess [("paris", locParisFresh)]).count .result = 1
        ∧ (flowNames "Paris" "" "" envSuccess [("paris", locParisFresh)]).count .video =
            (if locParisFresh.videoURL = "" then 0 else 1)
        ∧ (GetWeatherFlow "Paris" "" "" envSuccess [("paris", locParisFresh)]).ret = none
        ∧ (GetWeatherFlow "Paris" "" "" envSuccess [("paris", locParisFresh)]).upserts = []
        ∧ (GetWeatherFlow "Paris" "" "" envSuccess
            [("paris", locParisFresh)]).finalStore = [("paris", locParisFresh)])
    ∧ (GetWeatherFlow "Paris" "" "" envSuccess
        [("paris", locParisStalePreset)]).imageCalls = 1 := by
  have hfresh := c1_cache_hit_ttl "Paris" "" "" "Paris" envSuccess
    [("paris", locParisFresh)] locParisFresh rfl rfl
  have hstale := c1_cache_hit_ttl "Paris" "" "" "Paris" envSuccess
    [("paris", locParisStalePreset)] locParisStalePreset rfl rfl
  exact ⟨hfresh.1, hfresh.2.1 (by decide), hstale.2.2 (by decide)⟩

/-- True when the call outcome is an error. -/
def exceptFailed {α β : Type} : Except α β → Bool
  | .error _ => true
  | .ok _ => false

/-- The fatal-failure condition the claim describes: resolution failed, or
the run was a cache miss and the image generation call failed. -/
def specFatal (la ln : String) (env : FlowEnv) (db : Store) : Bool :=
  match flowResolve la ln env with
  | .error _ => true
  | .ok n =>
    !(isCacheHit (database.GetLocation db (weather.sanitizeID n)) env.now)
      && exceptFailed env.generateImage

/-- C4: a run returns a non-nil error exactly when resolution fails or the
cache-miss image generation fails; upload, video and persistence failures
after the result event never change the success return; and a
video-generation failure emits exactly one reassuring error event while
the run still returns success. -/
theorem c4_fatal_vs_soft_errors (cq la ln : String) (env : FlowEnv) (db : Store) :
    (GetWeatherFlow cq la ln env db).ret.isSome = specFatal la ln env db
    ∧ (∀ name img g p e,
        flowResolve la ln env = .ok name →
        isCacheHit (database.GetLocation db (weather.sanitizeID name)) env.now = false →
        env.generateImage = .ok img →
        env.storageAvailable = true →
        env.uploadImage = .ok (g, p) →
        env.generateVideo = .error e →
        (flowNames cq la ln env db).count .error = 1
        ∧ Event.error "Video generation failed (Beta). Enjoy the image!"
            ∈ (GetWeatherFlow cq la ln env db).events
        ∧ (GetWeatherFlow cq la ln env db).ret = none) := by
  constructor
  · rcases hres : flowResolve la ln env with ⟨msg, e⟩ | name
    · simp [GetWeatherFlow, hres, specFatal]
    · rcases hget : database.GetLocation db (weather.sanitizeID name) with _ | r
      · rcases himg : env.generateImage with ⟨e⟩ | ⟨img⟩ <;>
          simp [GetWeatherFlow, hres, hget, specFatal, isCacheHit,
            flowMiss_ret, himg, exceptFailed]
      · by_cases hfresh : env.now - r.lastUpdated < threeHours
        · simp [GetWeatherFlow, hres, hget, hfresh, specFatal, isCacheHit]
        · rcases himg : env.generateImage with ⟨e⟩ | ⟨img⟩ <;>
            simp [GetWeatherFlow, hres, hget, hfresh, specFatal, isCacheHit,
              flowMiss_ret, himg, exceptFailed]
  · intro name img g p e hres hmiss himg hsto hup hvid
    rcases hget : database.GetLocation db (weather.sanitizeID name) with _ | r
    · refine ⟨?_, ?_, ?_⟩ <;>
        simp [flowNames, GetWeatherFlow, hres, hget, flowMiss, himg, hsto, hup,
          flowAfterUpload, hvid, Event.name]
    · have hfresh : ¬ env.now - r.lastUpdated < threeHours := by
        simpa [isCacheHit, hget] using hmiss
      refine ⟨?_, ?_, ?_⟩ <;>
        simp [flowNames, GetWeatherFlow, hres, hget, hfresh, flowMiss, himg,
          hsto, hup, flowAfterUpload, hvid, Event.name]

/-- Witness for C4: the video-failure run over an empty store satisfies the
soft-failure clause — exactly one error event and a nil return. -/
theorem c4_fatal_vs_soft_errors_witness :
    (GetWeatherFlow "Paris" "" "" envVideoFail []).ret.isSome =
      specFatal "" "" envVideoFail []
    ∧ (flowNames "Paris" "" "" envVideoFail []).count .error = 1
    ∧ Event.error "Video generation failed (Beta). Enjoy the image!"
        ∈ (GetWeatherFlow "Paris" "" "" envVideoFail []).events
    ∧ (GetWeatherFlow "Paris" "" "" envVideoFail []).ret = none := by
  have h := c4_fatal_vs_soft_errors "Paris" "" "" envVideoFail []
  have h2 := h.2 "Paris" "IMG64" "gs://bkt/image_1.png" "https://pub/image_1.png"
    "veo quota" rfl (by decide) rfl rfl rfl rfl
  exact ⟨h.1, h2.1, h2.2.1, h2.2.2⟩

/-- C3 counterexample: in the concrete upload-failure run the code does
emit no error event and return success, but it performs no upsert at all —
`UploadImage` fails before the partial upsert of service.go line 185 is
reached, so no record (image-only or otherwise) is written and a
subsequent lookup of the derived id still finds nothing. -/
theorem c3_counterexample_upload_failure_writes_nothing :
    (GetWeatherFlow "Paris" "" "" envUploadFail []).ret = none
    ∧ (flowNames "Paris" "" "" envUploadFail []).count .error = 0
    ∧ ((GetWeatherFlow "Paris" "" "" envUploadFail []).upserts.any
        fun l => !(l.imageURL == "")) = false
    ∧ (GetWeatherFlow "Paris" "" "" envUploadFail []).upserts = []
    ∧ database.GetLocation (GetWeatherFlow "Paris" "" "" envUploadFail []).finalStore
        (weather.sanitizeID "Paris") = none := by
  refine ⟨?_, ?_, ?_, ?_, ?_⟩ <;> rfl

/-- C3 (amended): on a cache-miss run where image generation succeeds and
the upload fails, the run emits no error event and returns success but
performs no upsert, leaving the store unchanged; the partial image-only
upsert instead happens after a successful upload, so when the upload
succeeds and video generation then fails, the stored record carries the
public image URL and an empty video URL and a subsequent request for the
same id observes a fresh cache entry. -/
theorem c3_amended_soft_failure_persistence
    (cq la ln name img : String) (env : FlowEnv) (db : Store)
    (hres : flowResolve la ln env = .ok name)
    (hmiss : isCacheHit (database.GetLocation db (weather.sanitizeID name)) env.now = false)
    (himg : env.generateImage = .ok img)
    (hsto : env.storageAvailable = true) :
    (∀ e, env.uploadImage = .error e →
      (GetWeatherFlow cq la ln env db).ret = none
      ∧ (flowNames cq la ln env db).count .error = 0
      ∧ (GetWeatherFlow cq la ln env db).upserts = []
      ∧ (GetWeatherFlow cq la ln env db).finalStore = db)
    ∧ (∀ g p e2, env.uploadImage = .ok (g, p) → env.generateVideo = .error e2 →
        weather.sanitizeID name ≠ "" →
        (GetWeatherFlow cq la ln env db).ret = none
        ∧ (GetWeatherFlow cq la ln env db).upserts =
            [{ id := weather.sanitizeID name, name := name, category := "",
               cityQuery := name, imageURL := p, videoURL := "",
               isPreset := false, lastUpdated := env.now }]
        ∧ database.GetLocation (GetWeatherFlow cq la ln env db).finalStore
            (weather.sanitizeID name) =
          some { id := weather.sanitizeID name, name := name, category := "",
                 cityQuery := name, imageURL := p, videoURL := "",
                 isPreset := false, lastUpdated := env.now }
        ∧ isCacheHit
            (database.GetLocation (GetWeatherFlow cq la ln env db).finalStore
              (weather.sanitizeID name)) env.now = true) := by
  have hcases :
      database.GetLocation db (weather.sanitizeID name) = none
      ∨ ∃ r, database.GetLocation db (weather.sanitizeID name) = some r
          ∧ ¬ env.now - r.lastUpdated < threeHours := by
    rcases hget : database.GetLocation db (weather.sanitizeID name) with _ | r
    · exact Or.inl rfl
    · refine Or.inr ⟨r, rfl, ?_⟩
      simpa [isCacheHit, hget] using hmiss
  constructor
  · intro e hup
    rcases hcases with hget | ⟨r, hget, hfresh⟩
    · refine ⟨?_, ?_, ?_, ?_⟩ <;>
        simp [flowNames, GetWeatherFlow, hres, hget, flowMiss, himg, hsto,
          hup, Event.name]
    · refine ⟨?_, ?_, ?_, ?_⟩ <;>
        simp [flowNames, GetWeatherFlow, hres, hget, hfresh, flowMiss, himg,
          hsto, hup, Event.name]
  · intro g p e2 hup hvid hne
    rcases hcases with hget | ⟨r, hget, hfresh⟩
    · refine ⟨?_, ?_, ?_, ?_⟩
      · simp [GetWeatherFlow, hres, hget, flowMiss, himg, hsto, hup,
          flowAfterUpload, hvid]
      · simp [GetWeatherFlow, hres, hget, flowMiss, himg, hsto, hup,
          flowAfterUpload, hvid, applyUpsert, database.UpsertLocation, hne]
      · simp [GetWeatherFlow, hres, hget, flowMiss, himg, hsto, hup,
          flowAfterUpload, hvid, applyUpsert, database.UpsertLocation, hne,
          getLocation_setDoc_self]
      · simp [GetWeatherFlow, hres, hget, flowMiss, himg, hsto, hup,
          flowAfterUpload, hvid, applyUpsert, database.UpsertLocation, hne,
          getLocation_setDoc_self, isCacheHit, threeHours]
    · refine ⟨?_, ?_, ?_, ?_⟩
      · simp [GetWeatherFlow, hres, hget, hfresh, flowMiss, himg, hsto, hup,
          flowAfterUpload, hvid]
      · simp [GetWeatherFlow, hres, hget, hfresh, flowMiss, himg, hsto, hup,
          flowAfterUpload, hvid, applyUpsert, database.UpsertLocation, hne]
      · simp [GetWeatherFlow, hres, hget, hfresh, flowMiss, himg, hsto, hup,
          flowAfterUpload, hvid, applyUpsert, database.UpsertLocation, hne,
          getLocation_setDoc_self]
      · simp only [GetWeatherFlow, hres, hget, if_neg hfresh, flowMiss, himg,
          hsto, hup, flowAfterUpload, hvid, applyUpsert,
          database.UpsertLocation, if_neg hne, getLocation_setDoc_self]
        simp [getLocation_setDoc_self, isCacheHit, threeHours]

/-- Witness for C3 (amended): the upload-failure run writes nothing, and
the video-failure run leaves a fresh image-only record for `paris`. -/
theorem c3_amended_soft_failure_persistence_witness :
    ((GetWeatherFlow "Paris" "" "" envUploadFail []).ret = none
      ∧ (flowNames "Paris" "" "" envUploadFail []).count .error = 0
      ∧ (GetWeatherFlow "Paris" "" "" envUploadFail []).upserts = []
      ∧ (GetWeatherFlow "Paris" "" "" envUploadFail []).finalStore = [])
    ∧ ((GetWeatherFlow "Paris" "" "" envVideoFail []).ret = none
      ∧ (GetWeatherFlow "Paris" "" "" envVideoFail []).upserts =
          [{ id := "paris", name := "Paris", category := "",
             cityQuery := "Paris", imageURL := "https://pub/image_1.png",
             videoURL := "", isPreset := false, lastUpdated := 20000 }]
      ∧ database.GetLocation (GetWeatherFlow "Paris" "" "" envVideoFail []).finalStore
          (weather.sanitizeID "Paris") =
        some { id := "paris", name := "Paris", category := "",
               cityQuery := "Paris", imageURL := "https://pub/image_1.png",
               videoURL := "", isPreset := false, lastUpdated := 20000 }
      ∧ isCacheHit
          (database.GetLocation (GetWeatherFlow "Paris" "" "" envVideoFail []).finalStore
            (weather.sanitizeID "Paris")) envVideoFail.now = true) := by
  constructor
  · exact (c3_amended_soft_failure_persistence "Paris" "" "" "Paris" "IMG64"
      envUploadFail [] rfl rfl rfl rfl).1 "denied" rfl
  · have h := (c3_amended_soft_failure_persistence "Paris" "" "" "Paris" "IMG64"
      envVideoFail [] rfl rfl rfl rfl).2 "gs://bkt/image_1.png"
      "https://pub/image_1.png" "veo quota" rfl rfl (by decide)
    exact h

/-! ## Preset generation tool (src/unnamed/part_002, cmd main)

Batch mode processes one CSV row at a time, single mode one flag set; both
look up the id first and, when the record exists and `--force` is absent,
patch only name/category/isPreset and skip generation.  `processPreset`
(image generation, upload, video generation) is modelled as one oracle
outcome producing the two public URLs. -/

namespace preset

/-- Outcome of one `processPreset` call: the public image and video URLs,
or the first error of its three stages. -/
structure PresetEnv where
  processPreset : Except String (String × String)
deriving Repr

/-- The generation-and-save path shared by batch rows and single mode: on a
`processPreset` error the row is skipped (store unchanged); on success the
freshly generated record is saved with `IsPreset: true`. -/
def generateAndSave (db : Store) (now : Nat)
    (pID pName pCity pCat : String) (env : PresetEnv) : Store × Nat :=
  match env.processPreset with
  | .error _ => (db, 1)
  | .ok (imgURL, vidURL) =>
    (applyUpsert db now
      { id := pID, name := pName, category := pCat, cityQuery := pCity,
        imageURL := imgURL, videoURL := vidURL, isPreset := true,
        lastUpdated := now }, 1)

/-- Model of one batch-mode row (part_002 lines 240-277): check for an
existing record; with no force flag, patch metadata only and skip
generation; otherwise generate and save.  The second component counts
`processPreset` calls. -/
def batchRowRun (db : Store) (now : Nat) (force : Bool)
    (pID pName pCity pCat : String) (env : PresetEnv) : Store × Nat :=
  match database.GetLocation db pID with
  | some existing =>
    if force = false then
      (applyUpsert db now
        { existing with name := pName, category := pCat, isPreset := true }, 0)
    else generateAndSave db now pID pName pCity pCat env
  | none => generateAndSave db now pID pName pCity pCat env

/-- Model of single mode (part_002 lines 285-313): identical exists-and-not-
force short circuit, then generation and save. -/
def singleRun (db : Store) (now : Nat) (force : Bool)
    (id name city category : String) (env : PresetEnv) : Store × Nat :=
  match database.GetLocation db id with
  | some existing =>
    if force = false then
      (applyUpsert db now
        { existing with name := name, category := category, isPreset := true }, 0)
    else generateAndSave db now id name city category env
  | none => generateAndSave db now id name city category env

end preset

/-- C9: in both batch and single preset-generation mode, when a record with
the given id exists and force is false, no generation call is made and the
stored record keeps its image and video URLs (and city query), with only
name and category rewritten and isPreset set true (the store stamps
`lastUpdated` as on every write). -/
theorem c9_skip_on_exists (db : Store) (now : Nat)
    (pID pName pCity pCat : String) (env : preset.PresetEnv) (existing : Location)
    (hget : database.GetLocation db pID = some existing)
    (hid : existing.id = pID) (hne : pID ≠ "") :
    ((preset.batchRowRun db now false pID pName pCity pCat env).2 = 0
      ∧ database.GetLocation
          (preset.batchRowRun db now false pID pName pCity pCat env).1 pID =
        some { existing with
                 name := pName
                 category := pCat
                 isPreset := true
                 lastUpdated := now })
    ∧ ((preset.singleRun db now false pID pName pCity pCat env).2 = 0
      ∧ database.GetLocation
          (preset.singleRun db now false pID pName pCity pCat env).1 pID =
        some { existing with
                 name := pName
                 category := pCat
                 isPreset := true
                 lastUpdated := now }) := by
  have hne' : ({ existing with
                   name := pName
                   category := pCat
                   isPreset := true } : Location).id ≠ "" := by
    simpa [hid] using hne
  constructor
  · constructor
    · simp [preset.batchRowRun, hget]
    · simp only [preset.batchRowRun, hget, if_pos rfl, applyUpsert,
        database.UpsertLocation, if_neg hne']
      simpa [hid] using
        getLocation_setDoc_self db pID
          { existing with
              name := pName
              category := pCat
              isPreset := true
              lastUpdated := now }
  · constructor
    · simp [preset.singleRun, hget]
    · simp only [preset.singleRun, hget, if_pos rfl, applyUpsert,
        database.UpsertLocation, if_neg hne']
      simpa [hid] using
        getLocation_setDoc_self db pID
          { existing with
              name := pName
              category := pCat
              isPreset := true
              lastUpdated := now }

/-- Witness for C9: patching the existing stale Paris preset (image and
video URLs populated) with a new name and category performs zero
generation calls and preserves both URLs in both modes. -/
theorem c9_skip_on_exists_witness :
    (preset.batchRowRun [("paris", locParisStalePreset)] 30000 false "paris"
        "Paris, France" "Paris" "Capitals" { processPreset := .error "unused" }).2 = 0
    ∧ database.GetLocation
        (preset.batchRowRun [("paris", locParisStalePreset)] 30000 false "paris"
          "Paris, France" "Paris" "Capitals" { processPreset := .error "unused" }).1
        "paris" =
      some { id := "paris", name := "Paris, France", category := "Capitals",
             cityQuery := "Paris", imageURL := "https://pub/paris.png",
             videoURL := "https://pub/paris.mp4", isPreset := true,
             lastUpdated := 30000 }
    ∧ (preset.singleRun [("paris", locParisStalePreset)] 30000 false "paris"
        "Paris, France" "Paris" "Capitals" { processPreset := .error "unused" }).2 = 0 := by
  have h := c9_skip_on_exists [("paris", locParisStalePreset)] 30000 "paris"
    "Paris, France" "Paris" "Capitals" { processPreset := .error "unused" }
    locParisStalePreset rfl rfl (by decide)
  exact ⟨h.1.1, h.1.2, h.2.1⟩

theorem mem_setDoc (recs : Store) (k : String) (v : Location) :
    ∀ kv ∈ database.setDoc recs k v, kv = (k, v) ∨ kv ∈ recs := by
  induction recs with
  | nil => intro kv hkv; simp [database.setDoc] at hkv; exact Or.inl hkv
  | cons hd tl ih =>
    intro kv hkv
    by_cases h : hd.fst = k
    · rw [database.setDoc, if_pos h] at hkv
      rcases List.mem_cons.mp hkv with h1 | h1
      · exact Or.inl h1
      · exact Or.inr (List.mem_cons_of_mem hd h1)
    · rw [database.setDoc, if_neg h] at hkv
      rcases List.mem_cons.mp hkv with h1 | h1
      · exact Or.inr (h1 ▸ List.mem_cons_self hd tl)
      · rcases ih kv h1 with h2 | h2
        · exact Or.inl h2
        · exact Or.inr (List.mem_cons_of_mem hd h2)

theorem mem_setDoc_key (recs : Store) (k : String) (v : Location)
    (hnd : (recs.map Prod.fst).Nodup) :
    ∀ kv ∈ database.setDoc recs k v, kv.fst = k → kv = (k, v) := by
  induction recs with
  | nil =>
    intro kv hkv _
    simpa [database.setDoc] using hkv
  | cons hd tl ih =>
    rw [List.map_cons, List.nodup_cons] at hnd
    intro kv hkv hfst
    by_cases h : hd.fst = k
    · rw [database.setDoc, if_pos h] at hkv
      rcases List.mem_cons.mp hkv with h1 | h1
      · exact h1
      · have hmem : hd.fst ∈ tl.map Prod.fst := by
          rw [h, ← hfst]; exact List.mem_map_of_mem Prod.fst h1
        exact absurd hmem hnd.1
    · rw [database.setDoc, if_neg h] at hkv
      rcases List.mem_cons.mp hkv with h1 | h1
      · exact absurd (h1 ▸ hfst) h
      · exact ih hnd.2 kv h1 hfst

theorem nodup_setDoc (recs : Store) (k : String) (v : Location)
    (hnd : (recs.map Prod.fst).Nodup) :
    ((database.setDoc recs k v).map Prod.fst).Nodup := by
  induction recs with
  | nil => simp [database.setDoc]
  | cons hd tl ih =>
    rw [List.map_cons, List.nodup_cons] at hnd
    by_cases h : hd.fst = k
    · rw [database.setDoc, if_pos h]
      rw [List.map_cons, List.nodup_cons]
      exact ⟨fun hmem => hnd.1 (h ▸ hmem), hnd.2⟩
    · rw [database.setDoc, if_neg h]
      rw [List.map_cons, List.nodup_cons]
      refine ⟨fun hmem => ?_, ih hnd.2⟩
      rcases List.mem_map.mp hmem with ⟨kv, hkv, hfst⟩
      rcases mem_setDoc tl k v kv hkv with h1 | h1
      · exact h (by rw [← hfst, h1])
      · exact hnd.1 (hfst ▸ List.mem_map_of_mem Prod.fst h1)

theorem setDoc_key_props (db : Store) (k : String) (v : Location)
    (hnd : (db.map Prod.fst).Nodup)
    (hwf : ∀ kv ∈ db, (Prod.snd kv).id = kv.fst)
    (hv : v.id = k) :
    ((database.setDoc db k v).map Prod.fst).Nodup
    ∧ (∀ kv ∈ database.setDoc db k v, (Prod.snd kv).id = kv.fst)
    ∧ (∀ kv ∈ database.setDoc db k v, kv.fst = k → kv.snd = v) := by
  refine ⟨nodup_setDoc db k v hnd, ?_, ?_⟩
  · intro kv hkv
    rcases mem_setDoc db k v kv hkv with h1 | h1
    · rw [h1]; exact hv
    · exact hwf kv h1
  · intro kv hkv hfst
    rw [mem_setDoc_key db k v hnd kv hkv hfst]

theorem presets_exclude_key (st : Store) (k : String)
    (hwf : ∀ kv ∈ st, (Prod.snd kv).id = kv.fst)
    (hk : ∀ kv ∈ st, kv.fst = k → (Prod.snd kv).isPreset = false) :
    ((database.GetPresets st).all fun q => !(q.id == k)) = true := by
  rw [List.all_eq_true]
  intro q hq
  simp only [database.GetPresets, List.mem_map, List.mem_filter] at hq
  obtain ⟨kv, ⟨hmem, hpre⟩, rfl⟩ := hq
  by_cases hqk : kv.snd.id = k
  · have hfst : kv.fst = k := (hwf kv hmem) ▸ hqk
    rw [hk kv hmem hfst] at hpre
    cases hpre
  · simp [hqk]

theorem flowMiss_upserts_nonpreset (city locID : String) (env : FlowEnv)
    (db : Store) :
    ((flowMiss city locID env db).upserts.all
      fun l => !l.isPreset && (l.category == "")) = true := by
  rcases himg : env.generateImage with ⟨e⟩ | ⟨img⟩
  · simp [flowMiss, himg]
  · cases hsto : env.storageAvailable
    · simp [flowMiss, himg, hsto]
    · rcases hup : env.uploadImage with ⟨e⟩ | ⟨g, p⟩
      · simp [flowMiss, himg, hsto, hup]
      · rcases hvid : env.generateVideo with ⟨e2⟩ | ⟨v⟩ <;>
          simp [flowMiss, himg, hsto, hup, flowAfterUpload, hvid]

/-- C10: every record the web pipeline passes to `UpsertLocation` has
`isPreset = false` and an empty category; consequently, when the record
stored under the derived id is a stale preset and the run regenerates it
(image generation and upload succeed), the record is overwritten as a
non-preset with an erased category, and the preset listing no longer
contains any record with that id. -/
theorem c10_web_writes_demote_presets :
    (∀ cq la ln env db,
      ((GetWeatherFlow cq la ln env db).upserts.all
        fun l => !l.isPreset && (l.category == "")) = true)
    ∧ (∀ cq la ln name img g p env db r,
        flowResolve la ln env = .ok name →
        database.GetLocation db (weather.sanitizeID name) = some r →
        r.isPreset = true →
        threeHours ≤ env.now - r.lastUpdated →
        env.generateImage = .ok img →
        env.storageAvailable = true →
        env.uploadImage = .ok (g, p) →
        weather.sanitizeID name ≠ "" →
        (db.map Prod.fst).Nodup →
        (∀ kv ∈ db, (Prod.snd kv).id = kv.fst) →
        ((database.GetLocation (GetWeatherFlow cq la ln env db).finalStore
            (weather.sanitizeID name)).any
          fun l => !l.isPreset && (l.category == "")) = true
        ∧ ((database.GetPresets (GetWeatherFlow cq la ln env db).finalStore).all
            fun q => !(q.id == weather.sanitizeID name)) = true) := by
  constructor
  · intro cq la ln env db
    rcases hres : flowResolve la ln env with ⟨msg, e⟩ | name
    · simp [GetWeatherFlow, hres]
    · rcases hget : database.GetLocation db (weather.sanitizeID name) with _ | r
      · simp [GetWeatherFlow, hres, hget, flowMiss_upserts_nonpreset]
      · by_cases hfresh : env.now - r.lastUpdated < threeHours
        · simp [GetWeatherFlow, hres, hget, hfresh]
        · simp [GetWeatherFlow, hres, hget, hfresh, flowMiss_upserts_nonpreset]
  · intro cq la ln name img g p env db r hres hget hpre hstale himg hsto hup
      hne hnd hwf
    have hfresh : ¬ env.now - r.lastUpdated < threeHours := Nat.not_lt.mpr hstale
    rcases hvid : env.generateVideo with ⟨e2⟩ | ⟨vuri⟩
    · have hfs : (GetWeatherFlow cq la ln env db).finalStore =
          database.setDoc db (weather.sanitizeID name)
            { id := weather.sanitizeID name, name := name, category := "",
              cityQuery := name, imageURL := p, videoURL := "",
              isPreset := false, lastUpdated := env.now } := by
        simp [GetWeatherFlow, hres, hget, hfresh, flowMiss, himg, hsto, hup,
          flowAfterUpload, hvid, applyUpsert, database.UpsertLocation, hne]
      rw [hfs]
      obtain ⟨hnd1, hwf1, hkey1⟩ := setDoc_key_props db (weather.sanitizeID name)
        { id := weather.sanitizeID name, name := name, category := "",
          cityQuery := name, imageURL := p, videoURL := "",
          isPreset := false, lastUpdated := env.now } hnd hwf rfl
      refine ⟨by simp [getLocation_setDoc_self], ?_⟩
      refine presets_exclude_key _ _ hwf1 ?_
      intro kv hkv hfst
      rw [hkey1 kv hkv hfst]
    · have hfs : (GetWeatherFlow cq la ln env db).finalStore =
          database.setDoc
            (database.setDoc db (weather.sanitizeID name)
              { id := weather.sanitizeID name, name := name, category := "",
                cityQuery := name, imageURL := p, videoURL := "",
                isPreset := false, lastUpdated := env.now })
            (weather.sanitizeID name)
            { id := weather.sanitizeID name, name := name, category := "",
              cityQuery := name, imageURL := p,
              videoURL := "https://storage.googleapis.com/" ++ vuri.drop 5,
              isPreset := false, lastUpdated := env.now } := by
        simp [GetWeatherFlow, hres, hget, hfresh, flowMiss, himg, hsto, hup,
          flowAfterUpload, hvid, applyUpsert, database.UpsertLocation, hne]
      rw [hfs]
      obtain ⟨hnd1, hwf1, hkey1⟩ := setDoc_key_props db (weather.sanitizeID name)
        { id := weather.sanitizeID name, name := name, category := "",
          cityQuery := name, imageURL := p, videoURL := "",
          isPreset := false, lastUpdated := env.now } hnd hwf rfl
      obtain ⟨hnd2, hwf2, hkey2⟩ := setDoc_key_props _ (weather.sanitizeID name)
        { id := weather.sanitizeID name, name := name, category := "",
          cityQuery := name, imageURL := p,
          videoURL := "https://storage.googleapis.com/" ++ vuri.drop 5,
          isPreset := false, lastUpdated := env.now } hnd1 hwf1 rfl
      refine ⟨by simp [getLocation_setDoc_self], ?_⟩
      refine presets_exclude_key _ _ hwf2 ?_
      intro kv hkv hfst
      rw [hkey2 kv hkv hfst]

/-- Witness for C10: a web request for Paris over a store holding only the
stale Paris preset leaves a non-preset, category-less record under
`paris`, and the preset listing of the resulting store is free of it. -/
theorem c10_web_writes_demote_presets_witness :
    ((GetWeatherFlow "Paris" "" "" envSuccess
        [("paris", locParisStalePreset)]).upserts.all
      fun l => !l.isPreset && (l.category == "")) = true
    ∧ ((database.GetLocation
          (GetWeatherFlow "Paris" "" "" envSuccess
            [("paris", locParisStalePreset)]).finalStore
          (weather.sanitizeID "Paris")).any
        fun l => !l.isPreset && (l.category == "")) = true
    ∧ ((database.GetPresets
          (GetWeatherFlow "Paris" "" "" envSuccess
            [("paris", locParisStalePreset)]).finalStore).all
        fun q => !(q.id == weather.sanitizeID "Paris")) = true := by
  have h2 := c10_web_writes_demote_presets.2 "Paris" "" "" "Paris" "IMG64"
    "gs://bkt/image_1.png" "https://pub/image_1.png" envSuccess
    [("paris", locParisStalePreset)] locParisStalePreset
    rfl rfl rfl (by decide) rfl rfl rfl (by decide) (by decide) (by decide)
  exact ⟨c10_web_writes_demote_presets.1 "Paris" "" "" envSuccess
    [("paris", locParisStalePreset)], h2.1, h2.2⟩

end BananaWeather
